import Mathlib

/-!
Verification of the concurrent discovery and monitoring engine of
`netMonitor` (src/main.c) against its natural-language specification.

The C program is shallowly embedded: the host registry is a `List` of
`MonitoredHost` records, the TCP probe (`check_port`) and the reverse-DNS
lookup (`getnameinfo`) are oracle parameters, and C strings are Lean
`String`s (a `List Char` wrapper) with explicit truncation wherever the C
code copies into a bounded buffer (`strncpy` / `snprintf`).
-/

namespace NetMonitor

/-- HostStatus mirrors the C enum `HostStatus` (src/main.c lines 56-61). -/
inductive HostStatus where
  | scanning
  | up
  | unstable
  | down
deriving DecidableEq, Repr

/-- MonitoredHost mirrors the C struct `MonitoredHost` (src/main.c lines
63-69).  `ip` lives in a 16-byte buffer and `hostname` in a 256-byte buffer
in C; the truncation those buffers impose is applied explicitly at each
write site.  The C field `flash_timer` is a float that the engine only ever
writes as `1.0f` ("just changed", consumed and decayed by the renderer), so
it is modelled as a Bool flag (`true` = just set). -/
structure MonitoredHost where
  ip : String
  hostname : String
  status : HostStatus
  consecutive_failures : Nat
  flash_timer : Bool
deriving DecidableEq, Repr

/-- Placeholder host used as the default argument of total list lookups. -/
def dummyHost : MonitoredHost :=
  { ip := "", hostname := "", status := HostStatus.scanning,
    consecutive_failures := 0, flash_timer := false }

/-- Fallback subnet `DEFAULT_SUBNET` (src/main.c line 34). -/
def DEFAULT_SUBNET : String := "192.168.1."

/-- Sentinel address `INTERNET_CHECK_IP` (src/main.c line 35). -/
def INTERNET_CHECK_IP : String := "8.8.8.8"

/-- First host number scanned, `START_HOST` (src/main.c line 36). -/
def START_HOST : Nat := 1

/-- Last host number scanned, `END_HOST` (src/main.c line 37). -/
def END_HOST : Nat := 254

/-- Discovery worker count `NUM_THREADS` (src/main.c line 38). -/
def NUM_THREADS : Nat := 50

/-- Failure threshold `PING_FAIL_THRESHOLD` (src/main.c line 41). -/
def PING_FAIL_THRESHOLD : Nat := 3

/-- Probed port list `COMMON_PORTS` (src/main.c line 52). -/
def COMMON_PORTS : List Nat := [21, 22, 23, 80, 443, 445, 3389, 8080]

/-- Truncation of a string to its first `n` characters, as produced by a
bounded C copy (`strncpy`/`snprintf`) into an `n+1`-byte buffer. -/
def strTake (s : String) (n : Nat) : String := ⟨s.data.take n⟩

/-- The per-host reachability test of both the discovery workers and the
monitoring loop (src/main.c lines 313-318 and 369-374): probe every port of
`COMMON_PORTS` in order and succeed at the first open one.  `probe ip port`
is the oracle standing for `check_port`. -/
def hostOnline (probe : String → Nat → Bool) (ip : String) : Bool :=
  COMMON_PORTS.any (fun p => probe ip p)

/-- The registry insertion `add_host_to_list` (src/main.c lines 270-305):
a linear dedup scan on `ip`, then an append of a fresh entry.  `dns ip` is
the oracle standing for the `getnameinfo` reverse lookup (`none` = lookup
failed).  The stored `ip` is truncated to 15 characters by
`strncpy(..., 15)`, the override hostname to 255 by `strncpy(..., 255)`. -/
def add_host_to_list (dns : String → Option String) (l : List MonitoredHost)
    (ip : String) (hostname_override : Option String) : List MonitoredHost :=
  if l.any (fun e => e.ip == ip) then l
  else
    let hostname : String :=
      match hostname_override with
      | some ov => strTake ov 255
      | none =>
        match dns ip with
        | some name => name
        | none => "N/A"
    l ++ [{ ip := strTake ip 15, hostname := hostname,
            status := HostStatus.up, consecutive_failures := 0,
            flash_timer := true }]

/-- The candidate address a discovery worker builds for host number `i`
(src/main.c line 312): `snprintf(ip, 16, "%s%d", subnet, i)`, i.e. the
subnet string followed by the decimal digits of `i`, truncated to the 15
characters that fit the 16-byte buffer. -/
def candidateIP (subnet : String) (i : Nat) : String :=
  strTake (subnet ++ Nat.repr i) 15

/-- Body of the discovery worker loop for one host number (src/main.c
lines 309-318): build the candidate address and insert it into the
registry when any probed port answers. -/
def discovery_step (dns : String → Option String)
    (probe : String → Nat → Bool) (subnet : String)
    (l : List MonitoredHost) (i : Nat) : List MonitoredHost :=
  let ip := candidateIP subnet i
  if hostOnline probe ip then add_host_to_list dns l ip none else l

/-- One whole discovery phase (src/main.c lines 307-322 and 337-354),
before the sentinel insertion: every worker walks its assigned sub-range
of host numbers in ascending order and the 50 sub-ranges partition 1..254
(see `workerHosts`).  Because insertion dedups on the ip string and the
probe and dns oracles are functions of the address alone, the resulting
registry membership does not depend on the thread interleaving, only the
order of entries does, and that order is frozen by the subsequent sort.
The phase is therefore modelled as a sequential fold of `discovery_step`
over the host numbers in ascending order. -/
def discover_hosts (dns : String → Option String)
    (probe : String → Nat → Bool) (subnet : String) : List MonitoredHost :=
  (List.range' START_HOST (END_HOST - START_HOST + 1)).foldl
    (discovery_step dns probe subnet) []

/-- One monitoring action on one host (src/main.c lines 368-393): recompute
reachability, update status and the failure counter, raise the alert sound
(`Mix_PlayChannel`, the second component) exactly when the threshold is
crossed while not already Down, and set the flash timer on any status
change. -/
def sweepHost (is_online : Bool) (h : MonitoredHost) : MonitoredHost × Bool :=
  let old_status := h.status
  let step : MonitoredHost × Bool :=
    if is_online then
      ({ h with status := HostStatus.up, consecutive_failures := 0 }, false)
    else
      let cf := h.consecutive_failures + 1
      if PING_FAIL_THRESHOLD ≤ cf then
        ({ h with status := HostStatus.down, consecutive_failures := cf },
         decide (h.status ≠ HostStatus.down))
      else
        ({ h with status := HostStatus.unstable, consecutive_failures := cf },
         false)
  if step.1.status = old_status then step
  else ({ step.1 with flash_timer := true }, step.2)

/-- One full monitoring pass over the registry (src/main.c lines 366-395):
every registered host is re-probed and updated in place, in registry
order. -/
def monitorSweep (probe : String → Nat → Bool)
    (l : List MonitoredHost) : List MonitoredHost :=
  l.map (fun h => (sweepHost (hostOnline probe h.ip) h).1)

/-- States of one host along a sequence of monitoring sweeps, where
`bs.get k` is the reachability outcome of sweep `k`: the trace starts with
the initial state and records the state after each sweep
(`length = bs.length + 1`). -/
def monTrace (h : MonitoredHost) : List Bool → List MonitoredHost
  | [] => [h]
  | b :: bs => h :: monTrace (sweepHost b h).1 bs

/-- Alert outcomes of one host along a sequence of monitoring sweeps:
`true` at position `k` means the alert sound was played during sweep `k`. -/
def alertsTrace (h : MonitoredHost) : List Bool → List Bool
  | [] => []
  | b :: bs => (sweepHost b h).2 :: alertsTrace (sweepHost b h).1 bs

/-- Final state of one host after a sequence of monitoring sweeps. -/
def finalState (h : MonitoredHost) (bs : List Bool) : MonitoredHost :=
  bs.foldl (fun st b => (sweepHost b st).1) h

/-- Number of consecutive failed sweeps at the end of an outcome sequence,
i.e. the number of sweeps since the last successful probe. -/
def trailingFailures (bs : List Bool) : Nat :=
  (bs.reverse.takeWhile (fun b => !b)).length

/-- Per-thread host count `hosts_per_thread` (src/main.c line 338):
`(END_HOST - START_HOST + 1) / NUM_THREADS`. -/
def hostsPerThread : Nat := (END_HOST - START_HOST + 1) / NUM_THREADS

/-- First host number of discovery worker `i` (src/main.c line 343). -/
def workerStart (i : Nat) : Nat := START_HOST + i * hostsPerThread

/-- Last host number of discovery worker `i` (src/main.c line 344): the
final worker absorbs the remainder up to `END_HOST`. -/
def workerEnd (i : Nat) : Nat :=
  if i = NUM_THREADS - 1 then END_HOST else workerStart i + hostsPerThread - 1

/-- Inclusive range of host numbers assigned to discovery worker `i`
(src/main.c lines 309, 343-344). -/
def workerHosts (i : Nat) : List Nat :=
  List.range' (workerStart i) (workerEnd i + 1 - workerStart i)

/-- Validation of a command-line subnet argument (src/main.c lines
115-125): accepted iff non-empty, shorter than 16 characters and ending in
a literal dot; on success the argument is copied into the 16-byte
`active_subnet` buffer by `strncpy(..., 15)`. -/
def validate_subnet (arg : String) : Option String :=
  if 0 < arg.data.length ∧ arg.data.length < 16 ∧ arg.data.getLastD ' ' = '.'
  then some (strTake arg 15) else none

/-- Startup handling of the optional CLI subnet argument in `main`
(src/main.c lines 113-125), with `args` the argument vector after the
program name.  `Except.error 1` models `return 1`, which in the source
happens before any SDL initialisation, thread creation or network
activity; `Except.ok` carries the active subnet override, if any. -/
def mainStartup (args : List String) : Except Nat (Option String) :=
  match args with
  | [] => Except.ok none
  | arg :: _ =>
    match validate_subnet arg with
    | some s => Except.ok (some s)
    | none => Except.error 1

/-! ### Basic facts about one monitoring step -/

/-- Reachable hosts are reset to Up with a zero failure counter. -/
theorem sweepHost_online (h : MonitoredHost) :
    (sweepHost true h).1.status = HostStatus.up ∧
      (sweepHost true h).1.consecutive_failures = 0 := by
  simp only [sweepHost]
  split <;> (try split) <;> simp_all

/-- Unreachable hosts get an incremented counter and become Down at the
threshold, Unstable below it. -/
theorem sweepHost_offline (h : MonitoredHost) :
    (sweepHost false h).1.consecutive_failures = h.consecutive_failures + 1 ∧
      (sweepHost false h).1.status =
        (if PING_FAIL_THRESHOLD ≤ h.consecutive_failures + 1
          then HostStatus.down else HostStatus.unstable) := by
  simp only [sweepHost]
  split <;> (try split) <;> (try split) <;> simp_all

/-- The alert fires in a step exactly when the step moves the host into
Down from a non-Down status. -/
theorem sweepHost_alert_iff (b : Bool) (h : MonitoredHost) :
    (sweepHost b h).2 = true ↔
      ((sweepHost b h).1.status = HostStatus.down ∧
        h.status ≠ HostStatus.down) := by
  cases b <;>
    (simp only [sweepHost]
     split <;> (try split) <;> (try split) <;> simp_all)

/-- C1: in every monitoring sweep, for every registered host, a successful
probe on any port sets the status to Up and resets `consecutive_failures`
to 0 (directly, from any previous status); if all probes fail the counter
is incremented and the status becomes Down when the new value reaches the
threshold 3 and Unstable otherwise. -/
theorem monitor_sweep_updates_each_host (probe : String → Nat → Bool)
    (l : List MonitoredHost) (i : Nat) (hi : i < l.length)
    (hi2 : i < (monitorSweep probe l).length) :
    (hostOnline probe (l.get ⟨i, hi⟩).ip = true →
      ((monitorSweep probe l).get ⟨i, hi2⟩).status = HostStatus.up ∧
        ((monitorSweep probe l).get ⟨i, hi2⟩).consecutive_failures = 0) ∧
    (hostOnline probe (l.get ⟨i, hi⟩).ip = false →
      ((monitorSweep probe l).get ⟨i, hi2⟩).consecutive_failures
          = (l.get ⟨i, hi⟩).consecutive_failures + 1 ∧
        ((monitorSweep probe l).get ⟨i, hi2⟩).status =
          (if PING_FAIL_THRESHOLD ≤ (l.get ⟨i, hi⟩).consecutive_failures + 1
            then HostStatus.down else HostStatus.unstable)) := by
  have hmap : (monitorSweep probe l).get ⟨i, hi2⟩
      = (sweepHost (hostOnline probe (l.get ⟨i, hi⟩).ip) (l.get ⟨i, hi⟩)).1 := by
    simp [monitorSweep, List.get_eq_getElem]
  constructor
  · intro hon
    rw [hmap, hon]
    exact sweepHost_online _
  · intro hoff
    rw [hmap, hoff]
    exact ⟨(sweepHost_offline _).1, (sweepHost_offline _).2⟩

/-- Concrete sample registry used by witnesses: one host currently Down
and one freshly failing host. -/
def regA : List MonitoredHost :=
  [{ ip := "10.0.0.5", hostname := "alpha", status := HostStatus.down,
     consecutive_failures := 4, flash_timer := false },
   { ip := "10.0.0.7", hostname := "beta", status := HostStatus.up,
     consecutive_failures := 0, flash_timer := false }]

/-- Concrete probe oracle used by witnesses: only 10.0.0.5 answers, on
port 80. -/
def probeA : String → Nat → Bool := fun ip p => ip == "10.0.0.5" && p == 80

/-- Witness for C1 at a concrete sweep: the Down host that answers once
returns directly to Up with a reset counter, and the failing host's
counter increments. -/
theorem monitor_sweep_updates_each_host_witness :
    (((monitorSweep probeA regA).get ⟨0, by decide⟩).status = HostStatus.up ∧
      ((monitorSweep probeA regA).get ⟨0, by decide⟩).consecutive_failures = 0) ∧
    (((monitorSweep probeA regA).get ⟨1, by decide⟩).consecutive_failures
        = (regA.get ⟨1, by decide⟩).consecutive_failures + 1 ∧
      ((monitorSweep probeA regA).get ⟨1, by decide⟩).status =
        (if PING_FAIL_THRESHOLD ≤ (regA.get ⟨1, by decide⟩).consecutive_failures + 1
          then HostStatus.down else HostStatus.unstable)) :=
  ⟨(monitor_sweep_updates_each_host probeA regA 0 (by decide) (by decide)).1
      (by decide),
   (monitor_sweep_updates_each_host probeA regA 1 (by decide) (by decide)).2
      (by decide)⟩

/-! ### Traces of monitoring sweeps -/

/-- Length of the alert trace: one outcome per sweep. -/
theorem alertsTrace_length (h : MonitoredHost) (bs : List Bool) :
    (alertsTrace h bs).length = bs.length := by
  induction bs generalizing h with
  | nil => rfl
  | cons b bs ih => simp [alertsTrace, ih]

/-- Length of the state trace: the initial state plus one state per sweep. -/
theorem monTrace_length (h : MonitoredHost) (bs : List Bool) :
    (monTrace h bs).length = bs.length + 1 := by
  induction bs generalizing h with
  | nil => rfl
  | cons b bs ih => simp [monTrace, ih]

/-- The state trace starts with the initial state. -/
theorem monTrace_getElem_zero (h : MonitoredHost) (bs : List Bool)
    (hh : 0 < (monTrace h bs).length) : (monTrace h bs)[0] = h := by
  cases bs <;> rfl

/-- C2: for every host and every sequence of monitoring sweeps, the alert
fires during sweep `k` exactly when that sweep moves the host into Down
from a non-Down status; in particular it fires exactly once per contiguous
run of Down and never again while the host remains Down. -/
theorem alert_fires_exactly_on_down_transition (h : MonitoredHost)
    (bs : List Bool) (k : Nat)
    (hk : k < (alertsTrace h bs).length)
    (hk1 : k < (monTrace h bs).length)
    (hk2 : k + 1 < (monTrace h bs).length) :
    ((alertsTrace h bs)[k] = true ↔
      ((monTrace h bs)[k + 1].status = HostStatus.down ∧
        (monTrace h bs)[k].status ≠ HostStatus.down)) := by
  induction bs generalizing h k with
  | nil => simp [alertsTrace] at hk
  | cons b bs ih =>
    cases k with
    | zero =>
      simp only [alertsTrace, monTrace, List.getElem_cons_zero,
        List.getElem_cons_succ]
      rw [monTrace_getElem_zero]
      exact sweepHost_alert_iff b h
    | succ k =>
      have hbs : k < bs.length := by
        rw [alertsTrace_length] at hk
        simpa using Nat.lt_of_succ_lt_succ hk
      simp only [alertsTrace, monTrace, List.getElem_cons_succ]
      exact ih (sweepHost b h).1 k (by rw [alertsTrace_length]; exact hbs)
        (by rw [monTrace_length]; omega) (by rw [monTrace_length]; omega)

/-- Concrete host used by witnesses: freshly discovered, Up with no
failures. -/
def hostUp : MonitoredHost :=
  { ip := "10.0.0.9", hostname := "gamma", status := HostStatus.up,
    consecutive_failures := 0, flash_timer := false }

/-- Witness for C2: starting from Up, four consecutive failed sweeps cross
the threshold on the third sweep, which is exactly when the alert fires. -/
theorem alert_fires_exactly_on_down_transition_witness :
    ((alertsTrace hostUp [false, false, false, false])[2] = true ↔
      ((monTrace hostUp [false, false, false, false])[3].status = HostStatus.down ∧
        (monTrace hostUp [false, false, false, false])[2].status ≠ HostStatus.down)) :=
  alert_fires_exactly_on_down_transition hostUp [false, false, false, false] 2
    (by decide) (by decide) (by decide)

/-! ### The failure-threshold invariant -/

/-- Appending one more sweep to a run applies one monitoring step to its
final state. -/
theorem finalState_append (h : MonitoredHost) (bs : List Bool) (b : Bool) :
    finalState h (bs ++ [b]) = (sweepHost b (finalState h bs)).1 := by
  simp [finalState, List.foldl_append]

/-- One more successful sweep resets the count of consecutive trailing
failures; one more failed sweep extends it. -/
theorem trailingFailures_append (bs : List Bool) (b : Bool) :
    trailingFailures (bs ++ [b]) =
      if b then 0 else trailingFailures bs + 1 := by
  cases b <;> simp [trailingFailures, List.reverse_append, List.takeWhile_cons]

/-- C3: starting from the state every host has when discovery completes
(Up with a zero counter), after any sequence of monitoring sweeps the
failure counter equals the number of consecutive failed sweeps since the
last success, the status is Down exactly when that number is at least 3,
and Unstable exactly when it is 1 or 2. -/
theorem status_iff_trailing_failures (h0 : MonitoredHost) (bs : List Bool)
    (hs : h0.status = HostStatus.up) (hc : h0.consecutive_failures = 0) :
    (finalState h0 bs).consecutive_failures = trailingFailures bs ∧
    ((finalState h0 bs).status = HostStatus.down ↔ 3 ≤ trailingFailures bs) ∧
    ((finalState h0 bs).status = HostStatus.unstable ↔
      (trailingFailures bs = 1 ∨ trailingFailures bs = 2)) := by
  induction bs using List.reverseRecOn with
  | nil =>
    refine ⟨by simpa [finalState, trailingFailures] using hc, ?_, ?_⟩ <;>
      simp [finalState, trailingFailures, hs]
  | append_singleton bs b ih =>
    obtain ⟨hcf, hdown, hun⟩ := ih
    rw [finalState_append, trailingFailures_append]
    cases b with
    | true =>
      have hON := sweepHost_online (finalState h0 bs)
      refine ⟨by simp [hON.2], ?_, ?_⟩ <;> simp [hON.1]
    | false =>
      have off := sweepHost_offline (finalState h0 bs)
      refine ⟨by simp [off.1, hcf], ?_, ?_⟩ <;>
        · rw [off.2, hcf]
          simp only [PING_FAIL_THRESHOLD]
          split <;> simp <;> omega

/-- Witness for C3 at a concrete run: a success followed by three failures
leaves the host Down with three trailing failures on the counter. -/
theorem status_iff_trailing_failures_witness :
    (finalState hostUp [false, true, false, false, false]).consecutive_failures
        = trailingFailures [false, true, false, false, false] ∧
    ((finalState hostUp [false, true, false, false, false]).status = HostStatus.down ↔
      3 ≤ trailingFailures [false, true, false, false, false]) ∧
    ((finalState hostUp [false, true, false, false, false]).status = HostStatus.unstable ↔
      (trailingFailures [false, true, false, false, false] = 1 ∨
        trailingFailures [false, true, false, false, false] = 2)) :=
  status_iff_trailing_failures hostUp [false, true, false, false, false]
    (by decide) (by decide)

/-! ### String-buffer helpers -/

/-- Truncation to a buffer at least as large as the string is the
identity. -/
theorem strTake_of_le (s : String) (n : Nat) (h : s.data.length ≤ n) :
    strTake s n = s := by
  rcases s with ⟨cs⟩
  simp only [strTake]
  congr 1
  exact List.take_of_length_le h

/-! ### C8: the discovery range partition -/

set_option maxRecDepth 8000 in
/-- C8: the 50 discovery workers are assigned contiguous sub-ranges whose
concatenation is exactly the host numbers 1..254 and which are pairwise
disjoint, so every host number is scanned by exactly one worker. -/
theorem discovery_ranges_partition :
    ((List.range NUM_THREADS).flatMap workerHosts
        = List.range' START_HOST (END_HOST - START_HOST + 1)) ∧
    (List.range NUM_THREADS).Pairwise
      (fun i j => ∀ n, n ∈ workerHosts i → ¬ n ∈ workerHosts j) := by
  have hflat : ((List.range NUM_THREADS).map workerHosts).flatten
      = List.range' START_HOST (END_HOST - START_HOST + 1) := by decide
  refine ⟨by simpa [List.flatMap_def] using hflat, ?_⟩
  have hnd : (((List.range NUM_THREADS).map workerHosts).flatten).Nodup := by
    rw [hflat]
    exact List.nodup_range' _ _
  have hpw := (List.nodup_flatten.mp hnd).2
  rw [List.pairwise_map] at hpw
  exact hpw.imp (fun hd n hn hn2 => hd hn hn2)

/-! ### C9: CLI subnet validation -/

/-- C9: a command-line subnet argument is accepted exactly when it is
non-empty, shorter than 16 characters, and ends in a literal dot; an
accepted argument becomes the active subnet verbatim, and any other
argument makes startup fail with exit status 1 before anything else
runs. -/
theorem subnet_arg_validation (arg : String) :
    mainStartup [arg] =
      (if 0 < arg.data.length ∧ arg.data.length < 16 ∧
            arg.data.getLastD ' ' = '.'
        then Except.ok (some arg) else Except.error 1) := by
  have hms : mainStartup [arg]
      = (match validate_subnet arg with
          | some s => Except.ok (some s)
          | none => Except.error 1) := rfl
  by_cases hcond : 0 < arg.data.length ∧ arg.data.length < 16 ∧
      arg.data.getLastD ' ' = '.'
  · have htake : strTake arg 15 = arg :=
      strTake_of_le arg 15 (Nat.le_of_lt_succ hcond.2.1)
    have hv : validate_subnet arg = some (strTake arg 15) := if_pos hcond
    rw [hms, hv, htake, if_pos hcond]
  · have hv : validate_subnet arg = none := if_neg hcond
    rw [hms, hv, if_neg hcond]

/-! ### C6: inserting an existing IP is a no-op -/

/-- C6: adding an IP that is already registered leaves the registry
entirely unchanged (same length, every field of every entry intact), and
adding any dotted-quad address (at most 15 characters) preserves the
uniqueness of the registered IPs. -/
theorem add_existing_ip_noop_and_unique (dns : String → Option String)
    (l : List MonitoredHost) (ip : String) (ov : Option String) :
    (l.any (fun e => e.ip == ip) = true → add_host_to_list dns l ip ov = l) ∧
    (ip.data.length ≤ 15 → (l.map (fun e => e.ip)).Nodup →
      ((add_host_to_list dns l ip ov).map (fun e => e.ip)).Nodup) := by
  constructor
  · intro hp
    simp [add_host_to_list, hp]
  · intro hlen hnd
    by_cases hp : l.any (fun e => e.ip == ip) = true
    · simpa [add_host_to_list, hp] using hnd
    · have hp' : l.any (fun e => e.ip == ip) = false := by
        simpa using hp
      have hnotin : ip ∉ l.map (fun e => e.ip) := by
        simp only [List.any_eq_false, beq_iff_eq] at hp'
        intro hmem
        rcases List.mem_map.mp hmem with ⟨e, he, hip⟩
        exact hp' e he hip
      have hadd : add_host_to_list dns l ip ov
          = l ++ [{ ip := strTake ip 15,
                    hostname :=
                      match ov with
                      | some o => strTake o 255
                      | none =>
                        match dns ip with
                        | some name => name
                        | none => "N/A",
                    status := HostStatus.up, consecutive_failures := 0,
                    flash_timer := true }] := by
        simp [add_host_to_list, hp']
      rw [hadd, List.map_append, List.map_cons, List.map_nil]
      rw [List.nodup_append]
      refine ⟨hnd, List.nodup_singleton _, ?_⟩
      intro a ha hb
      rw [List.mem_singleton] at hb
      subst hb
      have ha' : strTake ip 15 ∈ List.map (fun e => e.ip) l := ha
      rw [strTake_of_le ip 15 hlen] at ha'
      exact hnotin ha'

/-- Witness for C6: re-adding the already registered address 10.0.0.5 to
the sample registry changes nothing and keeps its IPs unique. -/
theorem add_existing_ip_noop_and_unique_witness :
    (add_host_to_list (fun _ => none) regA "10.0.0.5" none = regA) ∧
    ((add_host_to_list (fun _ => none) regA "10.0.0.5" none).map
        (fun e => e.ip)).Nodup :=
  ⟨(add_existing_ip_noop_and_unique (fun _ => none) regA "10.0.0.5" none).1
      (by decide),
   (add_existing_ip_noop_and_unique (fun _ => none) regA "10.0.0.5" none).2
      (by decide) (by decide)⟩

/-! ### C7: inserting a new IP -/

/-- C7: adding an unregistered IP appends exactly one entry, leaves the
existing entries untouched, and the new entry starts Up with a zero
failure counter, the transition flag set, and a hostname that is the
supplied override verbatim, else the reverse-DNS result, else "N/A". -/
theorem add_new_ip_appends_entry (dns : String → Option String)
    (l : List MonitoredHost) (ip : String) (ov : Option String)
    (hnew : l.any (fun e => e.ip == ip) = false) :
    (add_host_to_list dns l ip ov).length = l.length + 1 ∧
    (add_host_to_list dns l ip ov).take l.length = l ∧
    ((add_host_to_list dns l ip ov).getLastD dummyHost).status
        = HostStatus.up ∧
    ((add_host_to_list dns l ip ov).getLastD dummyHost).consecutive_failures
        = 0 ∧
    ((add_host_to_list dns l ip ov).getLastD dummyHost).flash_timer = true ∧
    (∀ s, ov = some s → s.data.length ≤ 255 →
      ((add_host_to_list dns l ip ov).getLastD dummyHost).hostname = s) ∧
    (ov = none →
      ((add_host_to_list dns l ip ov).getLastD dummyHost).hostname
        = (dns ip).getD "N/A") := by
  have hadd : add_host_to_list dns l ip ov
      = l ++ [{ ip := strTake ip 15,
                hostname :=
                  match ov with
                  | some o => strTake o 255
                  | none =>
                    match dns ip with
                    | some name => name
                    | none => "N/A",
                status := HostStatus.up, consecutive_failures := 0,
                flash_timer := true }] := by
    simp [add_host_to_list, hnew]
  rw [hadd]
  refine ⟨by simp, ?_, ?_, ?_, ?_, ?_, ?_⟩
  · rw [List.take_append_eq_append_take]
    simp
  · rw [List.getLastD_concat]
  · rw [List.getLastD_concat]
  · rw [List.getLastD_concat]
  · intro s hs hlen
    subst hs
    rw [List.getLastD_concat]
    exact strTake_of_le s 255 hlen
  · intro hnone
    subst hnone
    rw [List.getLastD_concat]
    cases dns ip <;> rfl

/-- Witness for C7: inserting the sentinel into an empty registry yields
one entry whose hostname is the override "INTERNET" verbatim. -/
theorem add_new_ip_appends_entry_witness :
    (add_host_to_list (fun _ => none) [] "8.8.8.8" (some "INTERNET")).length
        = List.length ([] : List MonitoredHost) + 1 ∧
    ((add_host_to_list (fun _ => none) [] "8.8.8.8"
        (some "INTERNET")).getLastD dummyHost).hostname = "INTERNET" :=
  ⟨(add_new_ip_appends_entry (fun _ => none) [] "8.8.8.8" (some "INTERNET")
      (by decide)).1,
   (add_new_ip_appends_entry (fun _ => none) [] "8.8.8.8" (some "INTERNET")
      (by decide)).2.2.2.2.2.1 "INTERNET" rfl (by decide)⟩

/-! ### Dotted-quad parsing and the sort comparator -/

/-- Split of a character list at every dot, keeping empty groups, as the
scanner in `inet_pton` walks a dotted-decimal string. -/
def splitDot : List Char → List (List Char)
  | [] => [[]]
  | c :: cs =>
    match splitDot cs with
    | [] => [[]]
    | g :: gs => if c = '.' then [] :: g :: gs else (c :: g) :: gs

/-- Strict decimal octet as `inet_pton` accepts it: one to three digits,
no leading zero except for "0" itself, value at most 255. -/
def parseOctet (cs : List Char) : Option Nat :=
  if cs ≠ [] ∧ cs.length ≤ 3 ∧
      cs.all (fun c => decide ('0' ≤ c) && decide (c ≤ '9')) ∧
      (cs = ['0'] ∨ cs.head? ≠ some '0') then
    let v := cs.foldl (fun a c => a * 10 + (c.toNat - 48)) 0
    if v ≤ 255 then some v else none
  else none

/-- The conversion `inet_pton(AF_INET, s, &addr)` (src/main.c lines
516-518): exactly four strict octets.  On failure `inet_pton` leaves the
address bytes unspecified; registries only ever hold parsable addresses,
and the ordering theorems below assume distinct parsed values. -/
def parseIPv4 (s : String) : Option (Nat × Nat × Nat × Nat) :=
  match (splitDot s.data).map parseOctet with
  | [some a, some b, some c, some d] => some (a, b, c, d)
  | _ => none

/-- Numeric value that `compare_hosts` actually compares (src/main.c lines
520-521): `inet_pton` stores the four octets of `a.b.c.d` in network order
in `s_addr`, and the comparison reads `s_addr` back as a host-order
`uint32`; on the little-endian targets this build runs on (x86/x86-64/ARM
Linux, Windows, macOS) that value weights the FOURTH octet most:
`d*2^24 + c*2^16 + b*2^8 + a`.  An unparsable string is mapped to 0 here;
the C behaviour there is an uninitialised read and no theorem relies on
it. -/
def ipValueLE (s : String) : Nat :=
  match parseIPv4 s with
  | some (a, b, c, d) => ((d * 256 + c) * 256 + b) * 256 + a
  | none => 0

/-- Numeric value following the SPEC's words instead of the code: the
"standard big-endian interpretation of the four octets" of `a.b.c.d`,
`a*2^24 + b*2^16 + c*2^8 + d`.  Used only to compare the spec's claimed
order with the code's actual order. -/
def ipValueBE (s : String) : Nat :=
  match parseIPv4 s with
  | some (a, b, c, d) => ((a * 256 + b) * 256 + c) * 256 + d
  | none => 0

/-- The qsort comparator `compare_hosts` (src/main.c lines 508-523): any
entry named "INTERNET" compares greater than everything, otherwise the
host-order `s_addr` values are compared. -/
def compare_hosts (x y : MonitoredHost) : Int :=
  if x.hostname = "INTERNET" then 1
  else if y.hostname = "INTERNET" then -1
  else if ipValueLE x.ip < ipValueLE y.ip then -1
  else if ipValueLE y.ip < ipValueLE x.ip then 1
  else 0

/-- Ordered insertion with respect to `compare_hosts`. -/
def insert_host (h : MonitoredHost) : List MonitoredHost → List MonitoredHost
  | [] => [h]
  | x :: xs =>
    if compare_hosts h x ≤ 0 then h :: x :: xs else x :: insert_host h xs

/-- Model of the `qsort(discovered_hosts, ..., compare_hosts)` call
(src/main.c line 359).  On every list the claims quantify over (at most
one sentinel, distinct numeric addresses) `compare_hosts` is a strict
total order, so every comparison sort — qsort included — produces the same
unique ordered permutation; it is modelled as an insertion sort. -/
def sort_hosts (l : List MonitoredHost) : List MonitoredHost :=
  l.foldr insert_host []

/-- Transitivity of the comparator's "not greater" relation. -/
theorem compare_hosts_le_trans {a b c : MonitoredHost}
    (h1 : compare_hosts a b ≤ 0) (h2 : compare_hosts b c ≤ 0) :
    compare_hosts a c ≤ 0 := by
  simp only [compare_hosts] at *
  split_ifs at * <;> omega

/-- Totality of the comparator's "not greater" relation on any pair that
is not two sentinels. -/
theorem compare_hosts_total (x y : MonitoredHost)
    (hxy : ¬(x.hostname = "INTERNET" ∧ y.hostname = "INTERNET")) :
    compare_hosts x y ≤ 0 ∨ compare_hosts y x ≤ 0 := by
  simp only [compare_hosts]
  split_ifs <;> simp_all

/-- Ordered insertion permutes the extended list. -/
theorem insert_host_perm (h : MonitoredHost) (l : List MonitoredHost) :
    (insert_host h l).Perm (h :: l) := by
  induction l with
  | nil => exact List.Perm.refl _
  | cons x xs ih =>
    simp only [insert_host]
    split
    · exact List.Perm.refl _
    · exact (List.Perm.cons x ih).trans (List.Perm.swap h x xs)

/-- Sorting permutes the registry. -/
theorem sort_hosts_perm (l : List MonitoredHost) :
    (sort_hosts l).Perm l := by
  induction l with
  | nil => exact List.Perm.refl _
  | cons x xs ih =>
    exact (insert_host_perm x (sort_hosts xs)).trans (List.Perm.cons x ih)

/-- Ordered insertion preserves sortedness, given comparability of the
inserted element with the list. -/
theorem insert_host_sorted (h : MonitoredHost) (l : List MonitoredHost)
    (hs : l.Pairwise (fun a b => compare_hosts a b ≤ 0))
    (htot : ∀ y ∈ l, compare_hosts h y ≤ 0 ∨ compare_hosts y h ≤ 0) :
    (insert_host h l).Pairwise (fun a b => compare_hosts a b ≤ 0) := by
  induction l with
  | nil => simp [insert_host]
  | cons x xs ih =>
    simp only [insert_host]
    split
    case isTrue hle =>
      refine List.Pairwise.cons ?_ hs
      intro y hy
      rcases List.mem_cons.mp hy with rfl | hy'
      · exact hle
      · exact compare_hosts_le_trans hle (List.rel_of_pairwise_cons hs hy')
    case isFalse hgt =>
      have hxh : compare_hosts x h ≤ 0 := by
        rcases htot x (by simp) with hc | hc
        · exact absurd hc hgt
        · exact hc
      refine List.Pairwise.cons ?_
        (ih hs.of_cons (fun y hy => htot y (List.mem_cons_of_mem _ hy)))
      intro y hy
      have hy2 : y ∈ h :: xs := (insert_host_perm h xs).mem_iff.mp hy
      rcases List.mem_cons.mp hy2 with rfl | hy'
      · exact hxh
      · exact List.rel_of_pairwise_cons hs hy'

/-- With at most one sentinel in the registry, sorting produces a list
ordered by the comparator. -/
theorem sort_hosts_sorted (l : List MonitoredHost)
    (hone : l.countP (fun e => e.hostname == "INTERNET") ≤ 1) :
    (sort_hosts l).Pairwise (fun a b => compare_hosts a b ≤ 0) := by
  induction l with
  | nil => simp [sort_hosts]
  | cons x xs ih =>
    have hxs : xs.countP (fun e => e.hostname == "INTERNET") ≤ 1 := by
      have := List.countP_cons (fun e => e.hostname == "INTERNET") x xs
      omega
    have hsorted := ih hxs
    refine insert_host_sorted x (sort_hosts xs) hsorted ?_
    intro y hy
    refine compare_hosts_total x y ?_
    rintro ⟨hxI, hyI⟩
    have hyxs : y ∈ xs := (sort_hosts_perm xs).mem_iff.mp hy
    have hcount : xs.countP (fun e => e.hostname == "INTERNET") = 0 := by
      rw [List.countP_cons] at hone
      simp only [hxI, beq_self_eq_true, if_pos] at hone
      omega
    have := List.countP_eq_zero.mp hcount y hyxs
    simp [hyI] at this

/-- Host records for the ordering analysis: two plain hosts whose
host-order and big-endian numeric orders disagree, and the sentinel. -/
def hostA : MonitoredHost :=
  { ip := "10.0.0.5", hostname := "alpha", status := HostStatus.up,
    consecutive_failures := 0, flash_timer := false }

/-- Second plain host for the ordering analysis. -/
def hostB : MonitoredHost :=
  { ip := "10.0.1.2", hostname := "beta", status := HostStatus.up,
    consecutive_failures := 0, flash_timer := false }

/-- Sentinel registry entry as the Discoverer inserts it. -/
def sentinelHost : MonitoredHost :=
  { ip := "8.8.8.8", hostname := "INTERNET", status := HostStatus.up,
    consecutive_failures := 0, flash_timer := true }

/-- C4 counterexample: on a registry with unique IPs and no sentinel, the
code's sort does NOT order the entries ascending by the big-endian numeric
IP value: 10.0.1.2 is placed before 10.0.0.5 although its big-endian value
is greater, because the comparison reads `s_addr` in host (little-endian)
byte order. -/
theorem sort_not_bigendian_counterexample :
    ¬ (sort_hosts [hostA, hostB]).Pairwise (fun a b =>
        b.hostname = "INTERNET" ∨
          (a.hostname ≠ "INTERNET" ∧ ipValueBE a.ip < ipValueBE b.ip)) := by
  decide

/-- C4 (amended): for every registry with at most one sentinel and
pairwise distinct numeric addresses among the non-sentinel entries,
`sort()` places the sentinel (hostname "INTERNET") after every
non-sentinel entry and orders the non-sentinel entries ascending by the
32-bit value of `s_addr` in host byte order — on the little-endian build
targets, the value that weights the fourth octet most, which coincides
with the big-endian order exactly when all entries share the first three
octets, as all discovered hosts of one /24 subnet do. -/
theorem sort_sentinel_last_and_host_order (l : List MonitoredHost)
    (hone : l.countP (fun e => e.hostname == "INTERNET") ≤ 1)
    (hdist : l.Pairwise (fun a b => a.hostname ≠ "INTERNET" →
      b.hostname ≠ "INTERNET" → ipValueLE a.ip ≠ ipValueLE b.ip)) :
    (sort_hosts l).Pairwise (fun a b =>
      b.hostname = "INTERNET" ∨
        (a.hostname ≠ "INTERNET" ∧ ipValueLE a.ip < ipValueLE b.ip)) := by
  have hsorted := sort_hosts_sorted l hone
  have hsymm : Symmetric (fun a b : MonitoredHost => a.hostname ≠ "INTERNET" →
      b.hostname ≠ "INTERNET" → ipValueLE a.ip ≠ ipValueLE b.ip) :=
    fun a b hab hb ha => Ne.symm (hab ha hb)
  have hdist2 : (sort_hosts l).Pairwise (fun a b => a.hostname ≠ "INTERNET" →
      b.hostname ≠ "INTERNET" → ipValueLE a.ip ≠ ipValueLE b.ip) :=
    ((sort_hosts_perm l).pairwise_iff (fun hab => hsymm hab)).mpr hdist
  refine (hsorted.and hdist2).imp ?_
  rintro a b ⟨hle, hne⟩
  by_cases hbI : b.hostname = "INTERNET"
  · exact Or.inl hbI
  · by_cases haI : a.hostname = "INTERNET"
    · exfalso
      simp only [compare_hosts, haI, if_pos] at hle
      omega
    · refine Or.inr ⟨haI, ?_⟩
      have hvne := hne haI hbI
      simp only [compare_hosts, haI, hbI, if_neg, if_false] at hle
      split_ifs at hle <;> omega

/-- Witness for the amended C4: a concrete registry with the sentinel
listed first and out of numeric order still sorts with the sentinel last
and the plain entries ascending by host-order value. -/
theorem sort_sentinel_last_and_host_order_witness :
    (sort_hosts [sentinelHost, hostA, hostB]).Pairwise (fun a b =>
      b.hostname = "INTERNET" ∨
        (a.hostname ≠ "INTERNET" ∧ ipValueLE a.ip < ipValueLE b.ip)) :=
  sort_sentinel_last_and_host_order [sentinelHost, hostA, hostB]
    (by decide) (by decide)

/-! ### C5: the sentinel after discovery -/

/-- The registry at the moment `discovery_complete` is set (src/main.c
lines 352-362): all workers joined, the sentinel inserted by the
unconditional `add_host_to_list(INTERNET_CHECK_IP, "INTERNET")` call — no
probe gates it — and the whole registry sorted. -/
def registry_after_discovery (dns : String → Option String)
    (probe : String → Nat → Bool) (subnet : String) : List MonitoredHost :=
  sort_hosts (add_host_to_list dns (discover_hosts dns probe subnet)
    INTERNET_CHECK_IP (some "INTERNET"))

/-- Truncating twice to the same bound truncates once. -/
theorem strTake_idem (s : String) (n : Nat) :
    strTake (strTake s n) n = strTake s n := by
  simp only [strTake]
  congr 1
  rw [List.take_take, Nat.min_self]

/-- One discovery step preserves "no entry is named INTERNET and no entry
has the sentinel's address", as long as the candidate address of this step
is not the sentinel's and reverse DNS never answers "INTERNET". -/
theorem discovery_step_inv (dns : String → Option String)
    (probe : String → Nat → Bool) (subnet : String)
    (l : List MonitoredHost) (i : Nat)
    (hdns : ∀ ip n, dns ip = some n → n ≠ "INTERNET")
    (hi : candidateIP subnet i ≠ INTERNET_CHECK_IP)
    (hcnt : l.countP (fun e => e.hostname == "INTERNET") = 0)
    (hip : ∀ e ∈ l, e.ip ≠ INTERNET_CHECK_IP) :
    (discovery_step dns probe subnet l i).countP
        (fun e => e.hostname == "INTERNET") = 0 ∧
      ∀ e ∈ discovery_step dns probe subnet l i,
        e.ip ≠ INTERNET_CHECK_IP := by
  dsimp only [discovery_step]
  split
  case isFalse => exact ⟨hcnt, hip⟩
  case isTrue =>
    by_cases hp : l.any (fun e => e.ip == candidateIP subnet i) = true
    · have hnoop : add_host_to_list dns l (candidateIP subnet i) none = l := by
        simp [add_host_to_list, hp]
      rw [hnoop]
      exact ⟨hcnt, hip⟩
    · have hp' : l.any (fun e => e.ip == candidateIP subnet i) = false := by
        simpa using hp
      have hadd : add_host_to_list dns l (candidateIP subnet i) none
          = l ++ [{ ip := strTake (candidateIP subnet i) 15,
                    hostname :=
                      match dns (candidateIP subnet i) with
                      | some name => name
                      | none => "N/A",
                    status := HostStatus.up, consecutive_failures := 0,
                    flash_timer := true }] := by
        simp [add_host_to_list, hp']
      rw [hadd]
      constructor
      · rw [List.countP_append, hcnt]
        have hname : (match dns (candidateIP subnet i) with
            | some name => name
            | none => "N/A") ≠ "INTERNET" := by
          cases hd : dns (candidateIP subnet i) with
          | some n => exact hdns _ n hd
          | none => decide
        simp only [List.countP_cons, List.countP_nil]
        simp [hname]
      · intro e he
        rcases List.mem_append.mp he with hl | hr
        · exact hip e hl
        · rw [List.mem_singleton] at hr
          subst hr
          show strTake (candidateIP subnet i) 15 ≠ INTERNET_CHECK_IP
          rw [show strTake (candidateIP subnet i) 15 = candidateIP subnet i
            from strTake_idem (subnet ++ Nat.repr i) 15]
          exact hi

/-- The whole worker phase preserves the invariant of
`discovery_step_inv`, over any list of host numbers whose candidates all
differ from the sentinel address. -/
theorem discover_fold_inv (dns : String → Option String)
    (probe : String → Nat → Bool) (subnet : String)
    (hdns : ∀ ip n, dns ip = some n → n ≠ "INTERNET") :
    ∀ (is : List Nat) (l : List MonitoredHost),
      (∀ i ∈ is, candidateIP subnet i ≠ INTERNET_CHECK_IP) →
      l.countP (fun e => e.hostname == "INTERNET") = 0 →
      (∀ e ∈ l, e.ip ≠ INTERNET_CHECK_IP) →
      ((is.foldl (discovery_step dns probe subnet) l).countP
          (fun e => e.hostname == "INTERNET") = 0 ∧
        ∀ e ∈ is.foldl (discovery_step dns probe subnet) l,
          e.ip ≠ INTERNET_CHECK_IP) := by
  intro is
  induction is with
  | nil => exact fun l _ hcnt hip => ⟨hcnt, hip⟩
  | cons i is ih =>
    intro l hcand hcnt hip
    have hstep := discovery_step_inv dns probe subnet l i hdns
      (hcand i (by simp)) hcnt hip
    exact ih _ (fun j hj => hcand j (List.mem_cons_of_mem _ hj))
      hstep.1 hstep.2

/-- Reverse-DNS oracle that never resolves anything. -/
def dnsNone : String → Option String := fun _ => none

/-- Probe oracle for the counterexample run: only the address 8.8.8.8
itself answers, on port 80. -/
def probeGoogle : String → Nat → Bool := fun ip p => ip == "8.8.8.8" && p == 80

set_option maxRecDepth 20000 in
/-- C5 counterexample: a discovery run over the subnet "8.8.8." in which
host number 8 answers.  The worker phase then registers the address
8.8.8.8 with hostname "N/A", the later unconditional sentinel insertion is
a dedup no-op, and the completed registry contains NO entry whose hostname
is "INTERNET" — refuting "for every discovery run, once discovery is
marked complete the registry contains exactly one entry whose hostname is
INTERNET". -/
theorem sentinel_unique_counterexample :
    ¬ ((registry_after_discovery dnsNone probeGoogle "8.8.8.").countP
        (fun e => e.hostname == "INTERNET") = 1) := by
  decide

/-- C5 (amended): the Discoverer inserts the sentinel unconditionally
after the workers complete — the `add_host_to_list(INTERNET_CHECK_IP,
"INTERNET")` call is not gated by any probe result — and, provided no
discovery candidate address equals the sentinel's own address 8.8.8.8 and
no reverse-DNS answer is the literal string "INTERNET", the registry at
discovery completion contains exactly one entry whose hostname is
"INTERNET".  (When a candidate does equal 8.8.8.8 the dedup scan turns the
sentinel insertion into a no-op, see the counterexample.) -/
theorem sentinel_unique_after_discovery (dns : String → Option String)
    (probe : String → Nat → Bool) (subnet : String)
    (hcand : ∀ i ∈ List.range' START_HOST (END_HOST - START_HOST + 1),
      candidateIP subnet i ≠ INTERNET_CHECK_IP)
    (hdns : ∀ ip n, dns ip = some n → n ≠ "INTERNET") :
    (registry_after_discovery dns probe subnet).countP
      (fun e => e.hostname == "INTERNET") = 1 := by
  obtain ⟨hcnt, hip⟩ := discover_fold_inv dns probe subnet hdns
    (List.range' START_HOST (END_HOST - START_HOST + 1)) [] hcand rfl
    (by intro e he; cases he)
  have hnot : (discover_hosts dns probe subnet).any
      (fun e => e.ip == INTERNET_CHECK_IP) = false := by
    rw [List.any_eq_false]
    intro e he
    simpa using hip e he
  have hadd : add_host_to_list dns (discover_hosts dns probe subnet)
      INTERNET_CHECK_IP (some "INTERNET")
      = discover_hosts dns probe subnet
        ++ [{ ip := strTake INTERNET_CHECK_IP 15,
              hostname := strTake "INTERNET" 255,
              status := HostStatus.up, consecutive_failures := 0,
              flash_timer := true }] := by
    simp [add_host_to_list, hnot]
  have hcnt2 : (discover_hosts dns probe subnet).countP
      (fun e => e.hostname == "INTERNET") = 0 := hcnt
  unfold registry_after_discovery
  rw [(sort_hosts_perm _).countP_eq, hadd, List.countP_append, hcnt2]
  decide

/-- Probe oracle for the witness run on subnet 10.0.0.: only 10.0.0.5
answers, on port 22. -/
def probeW : String → Nat → Bool := fun ip p => ip == "10.0.0.5" && p == 22

set_option maxRecDepth 20000 in
/-- Witness for the amended C5: a discovery run over 10.0.0. ends with
exactly one INTERNET entry. -/
theorem sentinel_unique_after_discovery_witness :
    (registry_after_discovery dnsNone probeW "10.0.0.").countP
      (fun e => e.hostname == "INTERNET") = 1 :=
  sentinel_unique_after_discovery dnsNone probeW "10.0.0."
    (by decide) (fun ip n h => by simp [dnsNone] at h)

/-! ### C10: candidate-address truncation -/

/-- Appending strings appends their character lists. -/
theorem str_data_append (s t : String) :
    (s ++ t).data = s.data ++ t.data := rfl

/-- Two strings with the same character list are equal. -/
theorem str_ext (s t : String) (h : s.data = t.data) : s = t := by
  rcases s with ⟨cs⟩
  rcases t with ⟨ds⟩
  exact congrArg String.mk h

/-- Character list of a candidate address: the subnet characters followed
by the decimal digits, cut to 15. -/
theorem candidateIP_data (subnet : String) (i : Nat) :
    (candidateIP subnet i).data
      = (subnet.data ++ (Nat.repr i).data).take 15 := rfl

set_option maxRecDepth 4000 in
/-- Decimal digit counts of all host numbers: one to three characters. -/
theorem repr_short : ∀ i < 255,
    1 ≤ (Nat.repr i).data.length ∧ (Nat.repr i).data.length ≤ 3 := by
  decide

/-- C10 counterexample: the claim "for a subnet of length 13 to 15 the
intended addresses are never probed" fails on the code: with the 13-char
subnet "192.168.1234." (accepted by CLI validation), host number 1's
candidate fits the 16-byte buffer and IS the intended address, which is
therefore probed. -/
theorem truncation_never_probed_counterexample :
    ¬ (∀ i, 1 ≤ i → i ≤ 254 →
        candidateIP "192.168.1234." i ≠ "192.168.1234." ++ Nat.repr i) :=
  fun hall => hall 1 (by decide) (by decide) (by decide)

/-- C10 (amended): the discovery worker's candidate address is the first
15 characters of the subnet followed by the host number's decimal digits.
For every subnet of at most 12 characters the candidate equals the
intended address for every host number 1-254; for every subnet of length
13 to 15 (all accepted by CLI validation) some two distinct host numbers
yield the same probed address; and for a subnet of the full 15 characters
no host number is ever probed at its intended address. -/
theorem candidate_truncation_spec :
    (∀ (subnet : String) (i : Nat), subnet.data.length ≤ 12 →
      1 ≤ i → i ≤ 254 → candidateIP subnet i = subnet ++ Nat.repr i) ∧
    (∀ subnet : String, 13 ≤ subnet.data.length → subnet.data.length ≤ 15 →
      ∃ i j, 1 ≤ i ∧ i ≤ 254 ∧ 1 ≤ j ∧ j ≤ 254 ∧ i ≠ j ∧
        candidateIP subnet i = candidateIP subnet j) ∧
    (∀ subnet : String, subnet.data.length = 15 → ∀ i, 1 ≤ i → i ≤ 254 →
      candidateIP subnet i ≠ subnet ++ Nat.repr i) := by
  refine ⟨?_, ?_, ?_⟩
  · intro subnet i hlen h1 h2
    have hfit : (subnet ++ Nat.repr i).data.length ≤ 15 := by
      rw [str_data_append, List.length_append]
      have := (repr_short i (by omega)).2
      omega
    exact strTake_of_le _ 15 hfit
  · intro s h13 h15
    have hcase : s.data.length = 13 ∨ s.data.length = 14 ∨
        s.data.length = 15 := by omega
    rcases hcase with h | h | h
    · refine ⟨10, 100, by omega, by omega, by omega, by omega, by omega, ?_⟩
      apply str_ext
      rw [candidateIP_data, candidateIP_data,
        List.take_append_eq_append_take, List.take_append_eq_append_take, h]
      congr 1
    · refine ⟨1, 10, by omega, by omega, by omega, by omega, by omega, ?_⟩
      apply str_ext
      rw [candidateIP_data, candidateIP_data,
        List.take_append_eq_append_take, List.take_append_eq_append_take, h]
      congr 1
    · refine ⟨1, 2, by omega, by omega, by omega, by omega, by omega, ?_⟩
      apply str_ext
      rw [candidateIP_data, candidateIP_data,
        List.take_append_eq_append_take, List.take_append_eq_append_take, h]
      congr 1
  · intro s h15 i h1 h2 heq
    have hlen := congrArg (fun t : String => t.data.length) heq
    simp only [candidateIP_data, str_data_append, List.length_take,
      List.length_append] at hlen
    have := (repr_short i (by omega)).1
    omega

/-- Witness for the amended C10 at concrete inputs: with the usual
7-character subnet the candidate for host 5 is intended, and with a
15-character subnet host 7 is probed at a truncated, unintended
address. -/
theorem candidate_truncation_spec_witness :
    candidateIP "10.0.0." 5 = "10.0.0." ++ Nat.repr 5 ∧
    candidateIP "192.168.123.45." 7 ≠ "192.168.123.45." ++ Nat.repr 7 :=
  ⟨candidate_truncation_spec.1 "10.0.0." 5 (by decide) (by decide) (by decide),
   candidate_truncation_spec.2.2 "192.168.123.45." (by decide) 7
     (by decide) (by decide)⟩

end NetMonitor
